import Mathlib

/-!
Shallow embedding of the Audix backend (`src/backend/server.js`), an Express
server with signup/login, a song-upload pipeline, playlist listing,
play-history logging and a mood-based recommendation query.

JavaScript strings are modelled as `Option String` where `none` stands for a
missing (`undefined`) value; JS string truthiness (`undefined`, `null` and
`""` are falsy) is modelled by `truthy`.  The filesystem, the metadata
parser and the database are external effects: the handler is embedded as a
pure function over oracles (`Except` values) describing what each external
call would do, and its outcome records the response, the rows inserted, the
files written and the routes registered.
-/

namespace Audix

/-- JS truthiness of an optional string: `undefined` and `""` are falsy,
every other string is truthy. -/
def truthy : Option String → Bool
  | none => false
  | some s => !(s == "")

/-- The JS `a || d` idiom on an optional string `a` with fallback `d`:
the value of `a` when truthy, else `d`. -/
def orDefault (a : Option String) (d : String) : String :=
  match a with
  | none => d
  | some s => if s == "" then d else s

/-- The three-tier `tag || client || dflt` fallback used for
title/artist/album/genre resolution in the upload handler
(`server.js` lines 60-63). -/
def resolveField (tag client : Option String) (dflt : String) : String :=
  orDefault tag (orDefault client dflt)

/-- JS `metadata.common.genre?.[0]` (`server.js` line 63): `undefined` when
the genre list is missing or empty, else its first element. -/
def genreHead : Option (List String) → Option String
  | none => none
  | some l => l.head?

/-- Model of Node `path.parse(s).name` for a plain filename `s` (no
directory separators, as produced by a browser upload): everything before
the final `.`, except that a filename with no dot, or whose only dot is the
leading character (a dotfile such as `.env`), is returned whole.
Used at `server.js` line 53. -/
def parseName (s : String) : String :=
  let l := s.data
  let afterRev := l.reverse.takeWhile (fun c => !(c == '.'))
  if afterRev.length == l.length then s
  else if l.length - afterRev.length - 1 == 0 then s
  else String.mk (l.take (l.length - afterRev.length - 1))

/-- Little-endian decimal digit characters of `n`, structural in a fuel
argument so that it evaluates in the kernel.  Helper for `jsNatRepr`. -/
def decDigitsRev : Nat → Nat → List Char
  | 0, _ => []
  | fuel + 1, n => if n == 0 then [] else Nat.digitChar (n % 10) :: decDigitsRev fuel (n / 10)

/-- Model of the JS number-to-string coercion in a template literal
(`` `${Date.now()}-...` ``, `server.js` lines 19 and 72) for a nonnegative
integer: its decimal representation. -/
def jsNatRepr (n : Nat) : String :=
  if n == 0 then "0" else String.mk (decDigitsRev n n).reverse

/-- Numeric value of a little-endian digit-character list; inverse of
`decDigitsRev`, used to prove `jsNatRepr` injective. -/
def decValRev : List Char → Nat
  | [] => 0
  | c :: cs => (c.toNat - 48) + 10 * decValRev cs

theorem digitChar_isDigit {d : Nat} (h : d < 10) : (Nat.digitChar d).isDigit = true := by
  interval_cases d <;> decide

theorem digitChar_toNat {d : Nat} (h : d < 10) : (Nat.digitChar d).toNat - 48 = d := by
  interval_cases d <;> decide

theorem decDigitsRev_isDigit {fuel n : Nat} {c : Char}
    (hc : c ∈ decDigitsRev fuel n) : c.isDigit = true := by
  induction fuel generalizing n with
  | zero => simp [decDigitsRev] at hc
  | succ fuel ih =>
    by_cases h0 : n = 0
    · simp [decDigitsRev, h0] at hc
    · rw [decDigitsRev, if_neg (by simpa using h0)] at hc
      rcases List.mem_cons.mp hc with h | h
      · exact h ▸ digitChar_isDigit (Nat.mod_lt n (by omega))
      · exact ih h

theorem decValRev_decDigitsRev {fuel n : Nat} (h : n ≤ fuel) :
    decValRev (decDigitsRev fuel n) = n := by
  induction fuel generalizing n with
  | zero =>
    have hz : n = 0 := Nat.le_zero.mp h
    simp [decDigitsRev, hz, decValRev]
  | succ fuel ih =>
    by_cases h0 : n = 0
    · simp [decDigitsRev, h0, decValRev]
    · rw [decDigitsRev, if_neg (by simpa using h0), decValRev,
        ih (by omega), digitChar_toNat (Nat.mod_lt n (by omega))]
      omega

theorem decDigitsRev_ne_nil {fuel n : Nat} (hn : 0 < n) (h : n ≤ fuel) :
    decDigitsRev fuel n ≠ [] := by
  cases fuel with
  | zero => omega
  | succ fuel => rw [decDigitsRev, if_neg (by simp; omega)]; simp

/-- `jsNatRepr` produces only decimal digit characters. -/
theorem jsNatRepr_isDigit {n : Nat} {c : Char} (hc : c ∈ (jsNatRepr n).data) :
    c.isDigit = true := by
  unfold jsNatRepr at hc
  by_cases h0 : n = 0
  · simp [h0] at hc
    simp [hc]
  · rw [if_neg (by simpa using h0)] at hc
    exact decDigitsRev_isDigit (List.mem_reverse.mp hc)

/-- `jsNatRepr` is injective: distinct timestamps render as distinct strings. -/
theorem jsNatRepr_injective {n m : Nat} (h : jsNatRepr n = jsNatRepr m) : n = m := by
  unfold jsNatRepr at h
  by_cases hn : n = 0 <;> by_cases hm : m = 0
  · omega
  · rw [if_pos (by simpa using hn), if_neg (by simpa using hm)] at h
    have hd : ['0'] = (decDigitsRev m m).reverse := congrArg String.data h
    have : decValRev (decDigitsRev m m) = m := decValRev_decDigitsRev le_rfl
    rw [← List.reverse_reverse (decDigitsRev m m), ← hd] at this
    simp [decValRev] at this
    omega
  · rw [if_neg (by simpa using hn), if_pos (by simpa using hm)] at h
    have hd : (decDigitsRev n n).reverse = ['0'] := congrArg String.data h
    have : decValRev (decDigitsRev n n) = n := decValRev_decDigitsRev le_rfl
    rw [← List.reverse_reverse (decDigitsRev n n), hd] at this
    simp [decValRev] at this
    omega
  · rw [if_neg (by simpa using hn), if_neg (by simpa using hm)] at h
    have hd := congrArg String.data h
    simp only [] at hd
    have : decDigitsRev n n = decDigitsRev m m :=
      List.reverse_injective (by simpa using hd)
    calc n = decValRev (decDigitsRev n n) := (decValRev_decDigitsRev le_rfl).symm
    _ = decValRev (decDigitsRev m m) := by rw [this]
    _ = m := decValRev_decDigitsRev le_rfl

theorem string_ext {s t : String} (h : s.data = t.data) : s = t := by
  cases s; cases t; exact congrArg String.mk h

/-- Splitting a digit-prefix/dash/suffix concatenation is unambiguous:
the dash after the digits is the first non-digit character. -/
theorem digits_dash_append_inj :
    ∀ {a : List Char} {b r1 r2 : List Char},
      (∀ c ∈ a, c.isDigit = true) → (∀ c ∈ b, c.isDigit = true) →
      a ++ '-' :: r1 = b ++ '-' :: r2 → a = b ∧ r1 = r2 := by
  intro a
  induction a with
  | nil =>
    intro b r1 r2 _ hb h
    cases b with
    | nil => simpa using h
    | cons y ys =>
      simp only [List.nil_append, List.cons_append, List.cons.injEq] at h
      have : y.isDigit = true := hb y (List.mem_cons_self y ys)
      rw [← h.1] at this
      exact absurd this (by decide)
  | cons x xs ih =>
    intro b r1 r2 ha hb h
    cases b with
    | nil =>
      simp only [List.cons_append, List.nil_append, List.cons.injEq] at h
      have : x.isDigit = true := ha x (List.mem_cons_self x xs)
      rw [h.1] at this
      exact absurd this (by decide)
    | cons y ys =>
      simp only [List.cons_append, List.cons.injEq] at h
      obtain ⟨hxy, htl⟩ := h
      obtain ⟨h1, h2⟩ := ih (fun c hc => ha c (List.mem_cons_of_mem x hc))
        (fun c hc => hb c (List.mem_cons_of_mem y hc)) htl
      exact ⟨by rw [hxy, h1], h2⟩

/-- The multer `filename` callback (`server.js` line 19):
`` `${Date.now()}-${file.originalname}` ``. -/
def multerFilename (now : Nat) (originalname : String) : String :=
  jsNatRepr now ++ "-" ++ originalname

/-- The full path multer stores the raw audio at: the configured
destination `./uploads/songs` joined with the generated filename
(`server.js` lines 16-21). -/
def multerStoredPath (now : Nat) (originalname : String) : String :=
  "uploads/songs/" ++ multerFilename now originalname

theorem multerFilename_inj {n1 n2 : Nat} {f1 f2 : String}
    (h : multerFilename n1 f1 = multerFilename n2 f2) : n1 = n2 ∧ f1 = f2 := by
  have hd : (jsNatRepr n1).data ++ '-' :: f1.data
      = (jsNatRepr n2).data ++ '-' :: f2.data := by
    have := congrArg String.data h
    simpa [multerFilename, String.data_append] using this
  obtain ⟨h1, h2⟩ := digits_dash_append_inj
    (fun c hc => jsNatRepr_isDigit hc) (fun c hc => jsNatRepr_isDigit hc) hd
  exact ⟨jsNatRepr_injective (string_ext h1), string_ext h2⟩

theorem multerStoredPath_inj {n1 n2 : Nat} {f1 f2 : String}
    (h : multerStoredPath n1 f1 = multerStoredPath n2 f2) : n1 = n2 ∧ f1 = f2 := by
  have hd := congrArg String.data h
  simp only [multerStoredPath, String.data_append] at hd
  exact multerFilename_inj (string_ext (List.append_cancel_left hd))

/-- One upload request seen from the storage layer: a request identity, the
millisecond timestamp `Date.now()` returned during its multer callback, and
the browser-supplied original filename.  Distinct concurrent requests may
share a timestamp and a filename. -/
structure UploadEvent where
  requestId : Nat
  now : Nat
  originalname : String
deriving DecidableEq, Repr

/-- The path at which an upload event's raw audio is stored. -/
def storedPathOf (e : UploadEvent) : String :=
  multerStoredPath e.now e.originalname

/-- An embedded cover image as reported by `music-metadata`
(`metadata.common.picture[i]`): its binary payload, as a byte list. -/
structure Picture where
  data : List Nat
deriving DecidableEq, Repr

/-- The `metadata.common` tags the handler reads (`server.js` lines 60-63,
70-71).  Each may be absent (`undefined`); `genre` is a list of strings and
`picture` a list of embedded images when present. -/
structure CommonTags where
  title : Option String
  artist : Option String
  album : Option String
  genre : Option (List String)
  picture : Option (List Picture)
deriving DecidableEq, Repr

/-- The `metadata.format` fields the handler reads (`server.js`
lines 65-66). -/
structure FormatInfo where
  bitrate : Option Nat
  duration : Option Nat
deriving DecidableEq, Repr

/-- The result of `mm.parseFile` (`server.js` line 58). -/
structure Metadata where
  common : CommonTags
  format : FormatInfo
deriving DecidableEq, Repr

/-- The multipart text fields (`req.body`) the upload handler reads; each
is a string when supplied and absent otherwise. -/
structure ReqBody where
  title : Option String
  artist : Option String
  album : Option String
  genre : Option String
  mood : Option String
  language : Option String
  userId : Option String
deriving DecidableEq, Repr

/-- A request body with no fields supplied. -/
def emptyBody : ReqBody :=
  ⟨none, none, none, none, none, none, none⟩

/-- The `req.file` object multer attaches to the request: the
browser-supplied original name, and the path the raw bytes were stored
at. -/
structure UploadFile where
  originalname : String
  path : String
deriving DecidableEq, Repr

/-- The multer storage step for a request carrying a file: the bytes are
written under `./uploads/songs` with the timestamped filename
(`server.js` lines 16-22). -/
def multerStore (now : Nat) (originalname : String) : UploadFile :=
  ⟨originalname, multerStoredPath now originalname⟩

/-- The row inserted into `songs` (`server.js` lines 80-97), with a
parameter per insert placeholder. -/
structure Song where
  title : String
  artist : String
  album : String
  mood : String
  genre : String
  language : Option String
  filepath : String
  userId : Option String
  bitrate : Nat
  duration : Nat
  thumbnail : Option String
deriving DecidableEq, Repr

/-- Oracles for the three fallible external calls the upload handler makes,
in the order the handler reaches them: `mm.parseFile`, the cover
mkdir+`writeFileSync` pair, and the `INSERT INTO songs` query.  An `error`
value is the message of the exception that call would throw. -/
structure UploadOracles where
  parse : Except String Metadata
  coverWrite : Except String Unit
  dbInsert : Except String Unit
deriving Repr

/-- The JSON body of the upload response: `{success:true, message}` on
success (`server.js` line 99), `{error, details}` on failure
(`server.js` line 102). -/
inductive UploadResponse where
  | success (message : String)
  | failure (error : String) (details : String)
deriving DecidableEq, Repr

/-- A route registration: HTTP method and path. -/
abbrev Route := String × String

/-- The three routes registered inside the upload handler's body
(`server.js` lines 104-145). -/
def nestedRoutes : List Route :=
  [("GET", "/api/playlists"), ("POST", "/api/song/play"),
   ("GET", "/api/user/recommendations")]

/-- The routes registered at module load, before any request is served
(`server.js` lines 25, 36, 49). -/
def startupRoutes : List Route :=
  [("POST", "/api/auth/signup"), ("POST", "/api/auth/login"),
   ("POST", "/api/upload/song")]

/-- Everything observable about one invocation of the upload handler:
the HTTP status and JSON body sent, the path the raw audio was stored at
by multer (if any), the cover files written (path and bytes), the row
inserted into `songs` (if any), and the routes the invocation registered
on the Express app. -/
structure UploadOutcome where
  status : Nat
  response : UploadResponse
  storedAudio : Option String
  coverWrites : List (String × List Nat)
  dbInsert : Option Song
  registered : List Route
deriving DecidableEq, Repr

/-- The message of the `TypeError` thrown at `server.js` line 52 when the
request carries no file part (`req.file` is `undefined`). -/
def missingFileMsg : String :=
  "Cannot read properties of undefined (reading 'path')"

/-- The outcome of an invocation that hit the catch block
(`server.js` lines 100-103): status 500, `{error, details}` body, no row
inserted; the nested routes are still registered because lines 104-145 sit
after the try/catch inside the handler body. -/
def uploadFailure (stored : Option String) (writes : List (String × List Nat))
    (details : String) : UploadOutcome :=
  { status := 500, response := .failure "Upload failed" details,
    storedAudio := stored, coverWrites := writes, dbInsert := none,
    registered := nestedRoutes }

/-- The derived cover filename `` `${Date.now()}-${filename}-cover.jpg` ``
(`server.js` line 72), where `filename` is the original name without its
extension. -/
def coverFileName (now : Nat) (filename : String) : String :=
  jsNatRepr now ++ "-" ++ filename ++ "-cover.jpg"

/-- The relative thumbnail path `` `uploads/covers/${coverFileName}` ``
(`server.js` line 75). -/
def coverRelPath (now : Nat) (filename : String) : String :=
  "uploads/covers/" ++ coverFileName now filename

/-- The cover-saving step (`server.js` lines 69-77): when `picture` is
present and non-empty, the first image is written under `uploads/covers`
and its relative path becomes the thumbnail; the write may throw (oracle
`w`), carrying the files written so far (none) into the failure.  When no
cover exists, `thumbnailPath` keeps its initial `null`. -/
def coverStep (now : Nat) (filename : String) (m : Metadata)
    (w : Except String Unit) :
    Except (List (String × List Nat) × String)
      (Option String × List (String × List Nat)) :=
  match m.common.picture with
  | none => .ok (none, [])
  | some pics =>
    match pics with
    | [] => .ok (none, [])
    | cover :: _ =>
      match w with
      | .error e => .error ([], e)
      | .ok () => .ok (some (coverRelPath now filename),
          [(coverRelPath now filename, cover.data)])

/-- The upload handler body (`server.js` lines 49-147) as a pure function
of the request (`req.file`, `req.body`), the `Date.now()` value observed in
the cover step, and the oracles for the external calls.  Mirrors the
source's control flow: dereference `req.file` (throws when absent), parse,
resolve fields, save the cover, insert the row; any throw lands in the
catch block; the three nested route registrations run after the try/catch
on every invocation. -/
def handleUpload (nowCover : Nat) (file? : Option UploadFile) (body : ReqBody)
    (o : UploadOracles) : UploadOutcome :=
  match file? with
  | none => uploadFailure none [] missingFileMsg
  | some file =>
    match o.parse with
    | .error e => uploadFailure (some file.path) [] e
    | .ok metadata =>
      let filename := parseName file.originalname
      let title := resolveField metadata.common.title body.title filename
      let artist := resolveField metadata.common.artist body.artist "Unknown Artist"
      let album := resolveField metadata.common.album body.album "Unknown Album"
      let genre := resolveField (genreHead metadata.common.genre) body.genre "Unknown"
      match coverStep nowCover filename metadata o.coverWrite with
      | .error (writes, e) => uploadFailure (some file.path) writes e
      | .ok (thumbnailPath, writes) =>
        let song : Song :=
          { title := title, artist := artist, album := album,
            mood := orDefault body.mood "", genre := genre,
            language := body.language, filepath := file.path,
            userId := body.userId,
            bitrate := metadata.format.bitrate.getD 0,
            duration := metadata.format.duration.getD 0,
            thumbnail := thumbnailPath }
        match o.dbInsert with
        | .error e => uploadFailure (some file.path) writes e
        | .ok () =>
          { status := 200, response := .success "Song uploaded with metadata!",
            storedAudio := some file.path, coverWrites := writes,
            dbInsert := some song, registered := nestedRoutes }

/-- A whole upload request: multer stores the raw bytes first (when a file
part is present) with the timestamp `nowStore`, then the handler body runs. -/
def processUploadRequest (nowStore nowCover : Nat) (filePart : Option String)
    (body : ReqBody) (o : UploadOracles) : UploadOutcome :=
  handleUpload nowCover (filePart.map (multerStore nowStore)) body o

/-- The routes registered on the Express app after serving a sequence of
upload requests: the startup registrations plus whatever each upload
invocation registered. -/
def routesAfterUploads
    (reqs : List (Nat × Option UploadFile × ReqBody × UploadOracles)) :
    List Route :=
  startupRoutes ++
    (reqs.map (fun q => (handleUpload q.1 q.2.1 q.2.2.1 q.2.2.2).registered)).flatten

/-- A row of the `users` table: id, unique email, bcrypt password hash. -/
structure UserRow where
  id : Nat
  email : String
  password : String
deriving DecidableEq, Repr

/-- The login response (`server.js` lines 39, 43, 45): the HTTP status,
the `error` string if any, and the `user` object — which carries exactly an
id and an email, never a password field. -/
structure LoginResult where
  status : Nat
  error : Option String
  user : Option (Nat × String)
deriving DecidableEq, Repr

/-- The login handler (`server.js` lines 36-46) as a pure function of the
`users` table, the bcrypt verifier, and the submitted credentials.  The
`SELECT * FROM users WHERE email = $1` result set is modelled by filtering
the table; the handler looks only at `rows[0]`. -/
def loginHandler (users : List UserRow) (verify : String → String → Bool)
    (email password : String) : LoginResult :=
  match (users.filter (fun u => u.email == email)).head? with
  | none => { status := 401, error := some "User not found", user := none }
  | some user =>
    if verify password user.password then
      { status := 200, error := none, user := some (user.id, user.email) }
    else
      { status := 401, error := some "Invalid password", user := none }

/-- A row of the `history` table as the recommendation query reads it. -/
structure HistoryRow where
  userId : String
  songId : Nat
  playedAt : Nat
deriving DecidableEq, Repr

/-- The columns of a `songs` row the recommendation query touches. -/
structure SongRow where
  id : Nat
  mood : String
deriving DecidableEq, Repr

/-- Inner join of a user's history rows with the songs table, keeping
`(played_at, mood)` pairs (`server.js` lines 126-132, before ORDER/LIMIT).
Song ids are unique, so `find?` models the join. -/
def joinedPlays (history : List HistoryRow) (songs : List SongRow)
    (uid : String) : List (Nat × String) :=
  (history.filter (fun h => h.userId == uid)).filterMap
    (fun h => (songs.find? (fun s => s.id == h.songId)).map
      (fun s => (h.playedAt, s.mood)))

/-- Insert a play into a list sorted by `played_at` descending (stable). -/
def insertByPlayedAtDesc (p : Nat × String) :
    List (Nat × String) → List (Nat × String)
  | [] => [p]
  | q :: qs => if q.1 ≤ p.1 then p :: q :: qs else q :: insertByPlayedAtDesc p qs

/-- Stable sort by `played_at` descending, modelling
`ORDER BY h.played_at DESC`. -/
def sortByPlayedAtDesc : List (Nat × String) → List (Nat × String)
  | [] => []
  | p :: ps => insertByPlayedAtDesc p (sortByPlayedAtDesc ps)

/-- The rows the recommendation handler's first query returns: the moods of
the user's last three plays, most recent first (`server.js` lines 126-132,
`ORDER BY h.played_at DESC LIMIT 3`). -/
def lastThreeMoods (history : List HistoryRow) (songs : List SongRow)
    (uid : String) : List String :=
  ((sortByPlayedAtDesc (joinedPlays history songs uid)).take 3).map
    (fun p => p.2)

/-- Helper for `jsSetDedup`: drop elements already seen. -/
def jsSetDedupGo (seen : List String) : List String → List String
  | [] => []
  | x :: xs =>
    if seen.contains x then jsSetDedupGo seen xs
    else x :: jsSetDedupGo (x :: seen) xs

/-- The JS `[...new Set(l)]` idiom (`server.js` line 134): duplicates
collapsed, first occurrence kept, insertion order preserved. -/
def jsSetDedup (l : List String) : List String :=
  jsSetDedupGo [] l

/-- The mood filter array passed as `$1` to the recommendation query
(`server.js` lines 134-142): the deduplicated moods of the user's last
three plays. -/
def recommendationMoodFilter (history : List HistoryRow)
    (songs : List SongRow) (uid : String) : List String :=
  jsSetDedup (lastThreeMoods history songs uid)

/-- Spec-side definition (for claim C1): tier `t` of the documented
three-tier fallback chooses value `v`.  Tier 0 is the embedded tag, tier 1
the client-supplied field, tier 2 the fixed default; a tier may win only
when every earlier tier's value is empty or missing. -/
def tierSelects (tag client : Option String) (dflt v : String) : Fin 3 → Prop
  | 0 => truthy tag = true ∧ v = tag.getD ""
  | 1 => truthy tag = false ∧ truthy client = true ∧ v = client.getD ""
  | 2 => truthy tag = false ∧ truthy client = false ∧ v = dflt

/-- Spec-side definition (for claim C1), following the spec's words: `v`
resolves through the three-tier fallback, and exactly one tier wins. -/
def specFieldResolution (tag client : Option String) (dflt v : String) : Prop :=
  ∃! t : Fin 3, tierSelects tag client dflt v t

/-- The source's `tag || client || dflt` resolution satisfies the spec's
three-tier fallback with a unique winning tier. -/
theorem resolveField_specFieldResolution (tag client : Option String)
    (dflt : String) :
    specFieldResolution tag client dflt (resolveField tag client dflt) := by
  by_cases ht : truthy tag = true
  · refine ⟨0, ⟨ht, ?_⟩, ?_⟩
    · cases tag with
      | none => simp [truthy] at ht
      | some s =>
        simp only [truthy, Bool.not_eq_true'] at ht
        simp [resolveField, orDefault, ht]
    · intro t htt
      match t, htt with
      | 0, _ => rfl
      | 1, h => exact absurd h.1 (by simp [ht])
      | 2, h => exact absurd h.1 (by simp [ht])
  · have ht' : truthy tag = false := by simpa using ht
    have htag : resolveField tag client dflt = orDefault client dflt := by
      cases tag with
      | none => simp [resolveField, orDefault]
      | some s =>
        simp only [truthy, Bool.not_eq_true', beq_iff_eq] at ht'
        have : s = "" := by simpa using ht'
        simp [resolveField, orDefault, this]
    by_cases hc : truthy client = true
    · refine ⟨1, ⟨ht', hc, ?_⟩, ?_⟩
      · cases client with
        | none => simp [truthy] at hc
        | some s =>
          simp only [truthy, Bool.not_eq_true'] at hc
          simp [htag, orDefault, hc]
      · intro t htt
        match t, htt with
        | 0, h => exact absurd h.1 (by simp [ht'])
        | 1, _ => rfl
        | 2, h => exact absurd h.2.1 (by simp [hc])
    · have hc' : truthy client = false := by simpa using hc
      refine ⟨2, ⟨ht', hc', ?_⟩, ?_⟩
      · cases client with
        | none => simp [htag, orDefault]
        | some s =>
          simp only [truthy, Bool.not_eq_true', beq_iff_eq] at hc'
          have hs : s = "" := by simpa using hc'
          subst hs
          simp [htag, orDefault]
      · intro t htt
        match t, htt with
        | 0, h => exact absurd h.1 (by simp [ht'])
        | 1, h => exact absurd h.2.1 (by simp [hc'])
        | 2, _ => rfl

/-- The `songs` row the handler builds for a parsed file (`server.js`
lines 60-66 and 84-96), given the thumbnail the cover step produced. -/
def resolvedSong (f : UploadFile) (body : ReqBody) (m : Metadata)
    (thumb : Option String) : Song :=
  { title := resolveField m.common.title body.title (parseName f.originalname),
    artist := resolveField m.common.artist body.artist "Unknown Artist",
    album := resolveField m.common.album body.album "Unknown Album",
    mood := orDefault body.mood "",
    genre := resolveField (genreHead m.common.genre) body.genre "Unknown",
    language := body.language, filepath := f.path, userId := body.userId,
    bitrate := m.format.bitrate.getD 0, duration := m.format.duration.getD 0,
    thumbnail := thumb }

theorem handleUpload_ok_outcome {nowCover : Nat} {f : UploadFile}
    {body : ReqBody} {o : UploadOracles} {m : Metadata} {thumb : Option String}
    {writes : List (String × List Nat)}
    (hp : o.parse = Except.ok m)
    (hc : coverStep nowCover (parseName f.originalname) m o.coverWrite
      = Except.ok (thumb, writes))
    (hd : o.dbInsert = Except.ok ()) :
    handleUpload nowCover (some f) body o =
      { status := 200, response := .success "Song uploaded with metadata!",
        storedAudio := some f.path, coverWrites := writes,
        dbInsert := some (resolvedSong f body m thumb),
        registered := nestedRoutes } := by
  simp [handleUpload, hp, hc, hd, resolvedSong]

theorem handleUpload_insert_inv {nowCover : Nat} {f : UploadFile}
    {body : ReqBody} {o : UploadOracles} {s : Song}
    (hs : (handleUpload nowCover (some f) body o).dbInsert = some s) :
    ∃ m thumb writes, o.parse = Except.ok m ∧
      coverStep nowCover (parseName f.originalname) m o.coverWrite
        = Except.ok (thumb, writes) ∧
      o.dbInsert = Except.ok () ∧
      s = resolvedSong f body m thumb ∧
      (handleUpload nowCover (some f) body o).coverWrites = writes := by
  cases hp : o.parse with
  | error e => simp [handleUpload, hp, uploadFailure] at hs
  | ok m =>
    cases hc : coverStep nowCover (parseName f.originalname) m o.coverWrite with
    | error pe => simp [handleUpload, hp, hc, uploadFailure] at hs
    | ok pr =>
      obtain ⟨thumb, writes⟩ := pr
      cases hd : o.dbInsert with
      | error e => simp [handleUpload, hp, hc, hd, uploadFailure] at hs
      | ok u =>
        cases u
        refine ⟨m, thumb, writes, rfl, hc, rfl, ?_, ?_⟩
        · have := @handleUpload_ok_outcome nowCover f body o m thumb writes hp hc hd
          rw [this] at hs
          simpa using hs.symm
        · rw [@handleUpload_ok_outcome nowCover f body o m thumb writes hp hc hd]

theorem coverStep_no_pic {now : Nat} {fn : String} {m : Metadata}
    {w : Except String Unit} (h : m.common.picture.getD [] = []) :
    coverStep now fn m w = Except.ok (none, []) := by
  cases hp : m.common.picture with
  | none => simp [coverStep, hp]
  | some pics =>
    rw [hp] at h
    simp only [Option.getD_some] at h
    simp [coverStep, hp, h]

theorem coverStep_pic {now : Nat} {fn : String} {m : Metadata}
    {c : Picture} {rest : List Picture}
    (h : m.common.picture.getD [] = c :: rest) :
    coverStep now fn m (Except.ok ()) =
      Except.ok (some (coverRelPath now fn), [(coverRelPath now fn, c.data)]) := by
  cases hp : m.common.picture with
  | none => rw [hp] at h; simp at h
  | some pics =>
    rw [hp] at h
    simp only [Option.getD_some] at h
    simp [coverStep, hp, h]

theorem coverStep_ok_inv {now : Nat} {fn : String} {m : Metadata}
    {w : Except String Unit} {thumb : Option String}
    {writes : List (String × List Nat)}
    (h : coverStep now fn m w = Except.ok (thumb, writes)) :
    (m.common.picture.getD [] = [] ∧ thumb = none ∧ writes = []) ∨
    (∃ c rest, m.common.picture.getD [] = c :: rest ∧
      thumb = some (coverRelPath now fn) ∧
      writes = [(coverRelPath now fn, c.data)]) := by
  cases hp : m.common.picture with
  | none =>
    left
    rw [coverStep, hp] at h
    simp only [Except.ok.injEq, Prod.mk.injEq] at h
    exact ⟨by simp [hp], h.1.symm, h.2.symm⟩
  | some pics =>
    cases pics with
    | nil =>
      left
      rw [coverStep, hp] at h
      simp only [Except.ok.injEq, Prod.mk.injEq] at h
      exact ⟨by simp [hp], h.1.symm, h.2.symm⟩
    | cons c rest =>
      right
      rw [coverStep, hp] at h
      cases w with
      | error e => simp at h
      | ok u =>
        cases u
        simp only [Except.ok.injEq, Prod.mk.injEq] at h
        exact ⟨c, rest, by simp [hp], h.1.symm, h.2.symm⟩

/-- The relative cover path is never the empty string. -/
theorem coverRelPath_ne_empty (now : Nat) (fn : String) :
    coverRelPath now fn ≠ "" := by
  intro h
  have := congrArg String.data h
  simp [coverRelPath, coverFileName, String.data_append] at this

theorem mem_jsSetDedupGo {x : String} :
    ∀ {l seen : List String}, x ∈ jsSetDedupGo seen l ↔ x ∈ l ∧ ¬seen.contains x := by
  intro l
  induction l with
  | nil => intro seen; simp [jsSetDedupGo]
  | cons y ys ih =>
    intro seen
    by_cases hy : seen.contains y = true
    · rw [jsSetDedupGo, if_pos hy, ih]
      constructor
      · rintro ⟨hmem, hns⟩
        exact ⟨List.mem_cons_of_mem y hmem, hns⟩
      · rintro ⟨hmem, hns⟩
        rcases List.mem_cons.mp hmem with rfl | hmem
        · exact absurd hy hns
        · exact ⟨hmem, hns⟩
    · rw [jsSetDedupGo, if_neg hy]
      constructor
      · intro hmem
        rcases List.mem_cons.mp hmem with rfl | hmem
        · exact ⟨List.mem_cons_self x ys, by simpa using hy⟩
        · obtain ⟨h1, h2⟩ := ih.mp hmem
          simp only [List.contains_cons, Bool.or_eq_true, beq_iff_eq] at h2
          push_neg at h2
          exact ⟨List.mem_cons_of_mem y h1, by simpa using h2.2⟩
      · rintro ⟨hmem, hns⟩
        rcases List.mem_cons.mp hmem with rfl | hmem
        · exact List.mem_cons_self x _
        · by_cases hxy : x = y
          · subst hxy; exact List.mem_cons_self x _
          · refine List.mem_cons_of_mem y (ih.mpr ⟨hmem, ?_⟩)
            simp only [List.contains_cons, Bool.or_eq_true, beq_iff_eq]
            push_neg
            exact ⟨fun h => hxy h, by simpa using hns⟩

theorem nodup_jsSetDedupGo :
    ∀ {l seen : List String}, (jsSetDedupGo seen l).Nodup := by
  intro l
  induction l with
  | nil => intro seen; simp [jsSetDedupGo]
  | cons y ys ih =>
    intro seen
    by_cases hy : seen.contains y = true
    · rw [jsSetDedupGo, if_pos hy]; exact ih
    · rw [jsSetDedupGo, if_neg hy]
      refine List.nodup_cons.mpr ⟨?_, ih⟩
      intro hmem
      have := (mem_jsSetDedupGo.mp hmem).2
      simp at this

/-- `jsSetDedup` returns a duplicate-free list. -/
theorem jsSetDedup_nodup (l : List String) : (jsSetDedup l).Nodup :=
  nodup_jsSetDedupGo

/-- `jsSetDedup` keeps exactly the elements of its input. -/
theorem mem_jsSetDedup {x : String} {l : List String} :
    x ∈ jsSetDedup l ↔ x ∈ l := by
  rw [jsSetDedup, mem_jsSetDedupGo]
  simp

theorem handleUpload_registered (nowCover : Nat) (file? : Option UploadFile)
    (body : ReqBody) (o : UploadOracles) :
    (handleUpload nowCover file? body o).registered = nestedRoutes := by
  cases file? with
  | none => rfl
  | some f =>
    cases hp : o.parse with
    | error e => simp [handleUpload, hp, uploadFailure]
    | ok m =>
      cases hc : coverStep nowCover (parseName f.originalname) m o.coverWrite with
      | error pe => simp [handleUpload, hp, hc, uploadFailure]
      | ok pr =>
        obtain ⟨thumb, writes⟩ := pr
        cases hd : o.dbInsert with
        | error e => simp [handleUpload, hp, hc, hd, uploadFailure]
        | ok u => cases u; simp [handleUpload, hp, hc, hd]

theorem handleUpload_storedAudio (nowCover : Nat) (f : UploadFile)
    (body : ReqBody) (o : UploadOracles) :
    (handleUpload nowCover (some f) body o).storedAudio = some f.path := by
  cases hp : o.parse with
  | error e => simp [handleUpload, hp, uploadFailure]
  | ok m =>
    cases hc : coverStep nowCover (parseName f.originalname) m o.coverWrite with
    | error pe => simp [handleUpload, hp, hc, uploadFailure]
    | ok pr =>
      obtain ⟨thumb, writes⟩ := pr
      cases hd : o.dbInsert with
      | error e => simp [handleUpload, hp, hc, hd, uploadFailure]
      | ok u => cases u; simp [handleUpload, hp, hc, hd]

theorem head?_filter_email {users : List UserRow} {email : String} {u : UserRow}
    (hu : (users.filter (fun x => x.email == email)).head? = some u) :
    u.email = email := by
  have hmem : u ∈ users.filter (fun x => x.email == email) := by
    cases hl : users.filter (fun x => x.email == email) with
    | nil => rw [hl] at hu; simp at hu
    | cons a t =>
      rw [hl] at hu
      simp only [List.head?_cons, Option.some.injEq] at hu
      subst hu
      exact List.mem_cons_self _ _
  simpa using (List.mem_filter.mp hmem).2

theorem count_flatten_replicate (n : Nat) (l : List Route) (r : Route) :
    ((List.replicate n l).flatten).count r = n * l.count r := by
  induction n with
  | zero => simp
  | succ n ih =>
    rw [List.replicate_succ, List.flatten_cons, List.count_append, ih]
    ring

/-- The exception a throwing run of the upload pipeline ends with: the
parse threw, or the parse succeeded and the cover write threw, or both
succeeded (the cover write trivially so when no cover exists) and the
database insert threw. -/
def pipelineThrow (nowCover : Nat) (f : UploadFile) (o : UploadOracles)
    (e : String) : Prop :=
  o.parse = Except.error e ∨
  (∃ m, o.parse = Except.ok m ∧
    coverStep nowCover (parseName f.originalname) m o.coverWrite
      = Except.error ([], e)) ∨
  (∃ m thumb writes, o.parse = Except.ok m ∧
    coverStep nowCover (parseName f.originalname) m o.coverWrite
      = Except.ok (thumb, writes) ∧
    o.dbInsert = Except.error e)

/-- C1: for every upload request, each of title/artist/album/genre resolves
through the fixed three-tier fallback — embedded tag if non-empty, else
client field if non-empty, else the fixed default ("Unknown Artist",
"Unknown Album", "Unknown", and the original filename without extension
for title) — with exactly one tier winning per field
(`specFieldResolution` is an exactly-one-tier statement), and an
empty-string client field behaves exactly like a missing one. -/
theorem upload_field_resolution_three_tier
    (nowCover : Nat) (f : UploadFile) (body : ReqBody) (o : UploadOracles)
    (m : Metadata) (s : Song)
    (hp : o.parse = Except.ok m)
    (hs : (handleUpload nowCover (some f) body o).dbInsert = some s) :
    specFieldResolution m.common.title body.title (parseName f.originalname)
      s.title ∧
    specFieldResolution m.common.artist body.artist "Unknown Artist" s.artist ∧
    specFieldResolution m.common.album body.album "Unknown Album" s.album ∧
    specFieldResolution (genreHead m.common.genre) body.genre "Unknown"
      s.genre ∧
    (∀ tag : Option String, ∀ d : String,
      resolveField tag (some "") d = resolveField tag none d) := by
  obtain ⟨m', thumb, writes, hp', hc, hd, hsong, hw⟩ := handleUpload_insert_inv hs
  rw [hp] at hp'
  injection hp' with hm
  subst hm
  subst hsong
  refine ⟨resolveField_specFieldResolution _ _ _,
    resolveField_specFieldResolution _ _ _,
    resolveField_specFieldResolution _ _ _,
    resolveField_specFieldResolution _ _ _, ?_⟩
  intro tag d
  cases tag <;> rfl

/-- Witness for C1: the spec's scenario — `track.mp3` uploaded with no
embedded tags and no client fields resolves to title `track`,
artist `Unknown Artist`, album `Unknown Album`, genre `Unknown`. -/
theorem upload_field_resolution_three_tier_scenario :
    specFieldResolution none none (parseName "track.mp3") "track" ∧
    specFieldResolution none none "Unknown Artist" "Unknown Artist" ∧
    specFieldResolution none none "Unknown Album" "Unknown Album" ∧
    specFieldResolution (genreHead none) none "Unknown" "Unknown" ∧
    (∀ tag : Option String, ∀ d : String,
      resolveField tag (some "") d = resolveField tag none d) :=
  upload_field_resolution_three_tier 1
    ⟨"track.mp3", "uploads/songs/1-track.mp3"⟩ emptyBody
    ⟨Except.ok ⟨⟨none, none, none, none, none⟩, ⟨none, none⟩⟩,
      Except.ok (), Except.ok ()⟩
    ⟨⟨none, none, none, none, none⟩, ⟨none, none⟩⟩
    { title := "track", artist := "Unknown Artist", album := "Unknown Album",
      mood := "", genre := "Unknown", language := none,
      filepath := "uploads/songs/1-track.mp3", userId := none,
      bitrate := 0, duration := 0, thumbnail := none }
    rfl rfl

/-- C2: for every successful upload, the song's thumbnail is present iff
the file carried at least one embedded cover: with covers, exactly one
cover artifact is written — the first cover — and its relative path is the
thumbnail; with none, the thumbnail is `none`, never the empty string. -/
theorem upload_thumbnail_iff_cover
    (nowCover : Nat) (f : UploadFile) (body : ReqBody) (o : UploadOracles)
    (m : Metadata) (s : Song)
    (hp : o.parse = Except.ok m)
    (hs : (handleUpload nowCover (some f) body o).dbInsert = some s) :
    (m.common.picture.getD [] = [] → s.thumbnail = none ∧
      (handleUpload nowCover (some f) body o).coverWrites = []) ∧
    (∀ c rest, m.common.picture.getD [] = c :: rest →
      s.thumbnail = some (coverRelPath nowCover (parseName f.originalname)) ∧
      (handleUpload nowCover (some f) body o).coverWrites
        = [(coverRelPath nowCover (parseName f.originalname), c.data)]) ∧
    (∀ str, s.thumbnail = some str → str ≠ "") := by
  obtain ⟨m', thumb, writes, hp', hc, hd, hsong, hw⟩ := handleUpload_insert_inv hs
  rw [hp] at hp'
  injection hp' with hm
  subst hm
  subst hsong
  have hdisj := coverStep_ok_inv hc
  refine ⟨?_, ?_, ?_⟩
  · intro hnil
    rcases hdisj with ⟨_, ht, hwr⟩ | ⟨c, rest, hcons, _, _⟩
    · exact ⟨by simp [resolvedSong, ht], by rw [hw, hwr]⟩
    · rw [hnil] at hcons; exact absurd hcons (by simp)
  · intro c rest hcons
    rcases hdisj with ⟨hnil, _, _⟩ | ⟨c', rest', hcons', ht, hwr⟩
    · rw [hnil] at hcons; exact absurd hcons.symm (by simp)
    · rw [hcons] at hcons'
      injection hcons' with hc1 hc2
      exact ⟨by simp [resolvedSong, ht], by rw [hw, hwr, hc1]⟩
  · intro str hstr
    rcases hdisj with ⟨_, ht, _⟩ | ⟨c', rest', _, ht, _⟩
    · simp [resolvedSong, ht] at hstr
    · simp only [resolvedSong, ht, Option.some.injEq] at hstr
      rw [← hstr]
      exact coverRelPath_ne_empty nowCover (parseName f.originalname)

/-- Witness for C2: an upload with one embedded cover gets exactly that
cover written and referenced as the thumbnail; the no-cover branch and the
nonemptiness of the path are instantiated trivially. -/
theorem upload_thumbnail_iff_cover_instance :
    ((some [(⟨[7, 8]⟩ : Picture)] : Option (List Picture)).getD [] = [] →
      (some (coverRelPath 2 "track") : Option String) = none ∧
      ([(coverRelPath 2 "track", [7, 8])]
        : List (String × List Nat)) = []) ∧
    (∀ c rest,
      (some [(⟨[7, 8]⟩ : Picture)] : Option (List Picture)).getD [] = c :: rest →
      (some (coverRelPath 2 "track") : Option String)
        = some (coverRelPath 2 (parseName "track.mp3")) ∧
      ([(coverRelPath 2 "track", [7, 8])] : List (String × List Nat))
        = [(coverRelPath 2 (parseName "track.mp3"), c.data)]) ∧
    (∀ str, (some (coverRelPath 2 "track") : Option String) = some str →
      str ≠ "") :=
  upload_thumbnail_iff_cover 2
    ⟨"track.mp3", "uploads/songs/1-track.mp3"⟩ emptyBody
    ⟨Except.ok ⟨⟨none, none, none, none, some [⟨[7, 8]⟩]⟩, ⟨none, none⟩⟩,
      Except.ok (), Except.ok ()⟩
    ⟨⟨none, none, none, none, some [⟨[7, 8]⟩]⟩, ⟨none, none⟩⟩
    { title := "track", artist := "Unknown Artist", album := "Unknown Album",
      mood := "", genre := "Unknown", language := none,
      filepath := "uploads/songs/1-track.mp3", userId := none,
      bitrate := 0, duration := 0,
      thumbnail := some (coverRelPath 2 "track") }
    rfl rfl

/-- C3: any exception during metadata extraction, the cover write, or the
song insert is caught and turned into a single 500 response whose body has
an `error` field and a `details` field carrying the underlying message; no
song row is written in that case, and the raw audio stored by multer is
still there (the outcome's `storedAudio` is untouched — the model records
no deletion, matching the source, which has no cleanup code). -/
theorem upload_pipeline_failure_caught
    (nowCover : Nat) (f : UploadFile) (body : ReqBody) (o : UploadOracles)
    (e : String) (h : pipelineThrow nowCover f o e) :
    (handleUpload nowCover (some f) body o).status = 500 ∧
    (handleUpload nowCover (some f) body o).response
      = UploadResponse.failure "Upload failed" e ∧
    (handleUpload nowCover (some f) body o).dbInsert = none ∧
    (handleUpload nowCover (some f) body o).storedAudio = some f.path := by
  rcases h with hp | ⟨m, hp, hc⟩ | ⟨m, thumb, writes, hp, hc, hd⟩
  · exact ⟨by simp [handleUpload, hp, uploadFailure],
      by simp [handleUpload, hp, uploadFailure],
      by simp [handleUpload, hp, uploadFailure],
      handleUpload_storedAudio nowCover f body o⟩
  · exact ⟨by simp [handleUpload, hp, hc, uploadFailure],
      by simp [handleUpload, hp, hc, uploadFailure],
      by simp [handleUpload, hp, hc, uploadFailure],
      handleUpload_storedAudio nowCover f body o⟩
  · exact ⟨by simp [handleUpload, hp, hc, hd, uploadFailure],
      by simp [handleUpload, hp, hc, hd, uploadFailure],
      by simp [handleUpload, hp, hc, hd, uploadFailure],
      handleUpload_storedAudio nowCover f body o⟩

/-- Witness for C3: a failing metadata parse yields the 500 body with the
underlying message, no inserted row, and the stored audio still in place. -/
theorem upload_pipeline_failure_caught_instance :
    (handleUpload 1 (some ⟨"track.mp3", "uploads/songs/1-track.mp3"⟩)
      emptyBody ⟨Except.error "bad header", Except.ok (), Except.ok ()⟩).status
      = 500 ∧
    (handleUpload 1 (some ⟨"track.mp3", "uploads/songs/1-track.mp3"⟩)
      emptyBody ⟨Except.error "bad header", Except.ok (), Except.ok ()⟩).response
      = UploadResponse.failure "Upload failed" "bad header" ∧
    (handleUpload 1 (some ⟨"track.mp3", "uploads/songs/1-track.mp3"⟩)
      emptyBody ⟨Except.error "bad header", Except.ok (), Except.ok ()⟩).dbInsert
      = none ∧
    (handleUpload 1 (some ⟨"track.mp3", "uploads/songs/1-track.mp3"⟩)
      emptyBody
      ⟨Except.error "bad header", Except.ok (), Except.ok ()⟩).storedAudio
      = some "uploads/songs/1-track.mp3" :=
  upload_pipeline_failure_caught 1
    ⟨"track.mp3", "uploads/songs/1-track.mp3"⟩ emptyBody
    ⟨Except.error "bad header", Except.ok (), Except.ok ()⟩ "bad header"
    (Or.inl rfl)

/-- Counterexample to C4 as stated: two distinct upload requests that
happen to observe the same `Date.now()` millisecond and carry the same
original filename are stored at the very same path — the claimed
uniqueness fails. -/
theorem upload_path_unique_counterexample :
    (⟨0, 5, "track.mp3"⟩ : UploadEvent) ≠ (⟨1, 5, "track.mp3"⟩ : UploadEvent) ∧
    storedPathOf ⟨0, 5, "track.mp3"⟩ = storedPathOf ⟨1, 5, "track.mp3"⟩ := by
  exact ⟨by decide, rfl⟩

/-- C4 (amended): the payload is stored — whatever the later pipeline steps
do — at the path formed from the `Date.now()` timestamp prefix and the
original filename, and that path is unique among uploads that differ in
timestamp or in original filename; two uploads sharing both collide. -/
theorem upload_intake_unconditional_and_unique
    (nowStore nowCover : Nat) (name : String) (body : ReqBody)
    (o : UploadOracles) (e1 e2 : UploadEvent)
    (h : e1.now ≠ e2.now ∨ e1.originalname ≠ e2.originalname) :
    (processUploadRequest nowStore nowCover (some name) body o).storedAudio
      = some (multerStoredPath nowStore name) ∧
    storedPathOf e1 ≠ storedPathOf e2 := by
  constructor
  · exact handleUpload_storedAudio nowCover (multerStore nowStore name) body o
  · intro heq
    obtain ⟨hn, hf⟩ := multerStoredPath_inj heq
    rcases h with h | h <;> exact h (by assumption)

/-- Witness for C4 (amended): a parse failure does not prevent storage, and
uploads one millisecond apart are stored at distinct paths. -/
theorem upload_intake_unconditional_and_unique_instance :
    (processUploadRequest 5 6 (some "track.mp3") emptyBody
      ⟨Except.error "boom", Except.ok (), Except.ok ()⟩).storedAudio
      = some (multerStoredPath 5 "track.mp3") ∧
    storedPathOf ⟨0, 5, "track.mp3"⟩ ≠ storedPathOf ⟨0, 6, "track.mp3"⟩ :=
  upload_intake_unconditional_and_unique 5 6 "track.mp3" emptyBody
    ⟨Except.error "boom", Except.ok (), Except.ok ()⟩
    ⟨0, 5, "track.mp3"⟩ ⟨0, 6, "track.mp3"⟩ (Or.inl (by decide))

/-- C5: a login whose email matches no stored user, or whose password does
not verify against the first matching user's hash, gets a 401 whose body
carries no user data — `user` is absent, and the only other field is the
fixed error string. -/
theorem login_reject_leaks_nothing
    (users : List UserRow) (verify : String → String → Bool)
    (email password : String)
    (h : (users.filter (fun u => u.email == email)).head? = none ∨
      ∃ u, (users.filter (fun u => u.email == email)).head? = some u ∧
        verify password u.password = false) :
    (loginHandler users verify email password).status = 401 ∧
    (loginHandler users verify email password).user = none := by
  rcases h with h | ⟨u, hu, hv⟩
  · simp [loginHandler, h]
  · simp [loginHandler, hu, hv]

/-- Witness for C5: an unknown email is rejected with 401 and no user
object. -/
theorem login_reject_leaks_nothing_instance :
    (loginHandler [⟨1, "a@b.com", "hashed"⟩] (fun p h => p == h)
      "x@y.com" "pw").status = 401 ∧
    (loginHandler [⟨1, "a@b.com", "hashed"⟩] (fun p h => p == h)
      "x@y.com" "pw").user = none :=
  login_reject_leaks_nothing [⟨1, "a@b.com", "hashed"⟩] (fun p h => p == h)
    "x@y.com" "pw" (Or.inl rfl)

/-- C6: a login with a correct email/password pair answers 200 with exactly
the matching user's id and email — the response record holds no password
field at all, and its only string payload is the user's email. -/
theorem login_success_id_email_only
    (users : List UserRow) (verify : String → String → Bool)
    (email password : String) (u : UserRow)
    (hu : (users.filter (fun x => x.email == email)).head? = some u)
    (hv : verify password u.password = true) :
    loginHandler users verify email password
      = { status := 200, error := none, user := some (u.id, u.email) } ∧
    u.email = email := by
  exact ⟨by simp [loginHandler, hu, hv], head?_filter_email hu⟩

/-- Witness for C6: logging in as a stored user with the right password
returns 200 and the pair (id, email). -/
theorem login_success_id_email_only_instance :
    loginHandler [⟨1, "a@b.com", "pw123"⟩] (fun p h => p == h)
      "a@b.com" "pw123"
      = { status := 200, error := none, user := some (1, "a@b.com") } ∧
    ("a@b.com" : String) = "a@b.com" :=
  login_success_id_email_only [⟨1, "a@b.com", "pw123"⟩] (fun p h => p == h)
    "a@b.com" "pw123" ⟨1, "a@b.com", "pw123"⟩ rfl rfl

/-- C7: the mood filter handed to the recommendation query is the
duplicate-free set of the moods of the user's last three plays (most recent
first): it has no duplicates and exactly the same members, and on history
moods happy, sad, happy it is exactly [happy, sad]. -/
theorem recommendations_mood_filter_dedup :
    (∀ (history : List HistoryRow) (songs : List SongRow) (uid : String),
      (recommendationMoodFilter history songs uid).Nodup ∧
      ∀ x, x ∈ recommendationMoodFilter history songs uid ↔
        x ∈ lastThreeMoods history songs uid) ∧
    lastThreeMoods [⟨"7", 1, 30⟩, ⟨"7", 2, 20⟩, ⟨"7", 3, 10⟩]
      [⟨1, "happy"⟩, ⟨2, "sad"⟩, ⟨3, "happy"⟩] "7"
      = ["happy", "sad", "happy"] ∧
    recommendationMoodFilter [⟨"7", 1, 30⟩, ⟨"7", 2, 20⟩, ⟨"7", 3, 10⟩]
      [⟨1, "happy"⟩, ⟨2, "sad"⟩, ⟨3, "happy"⟩] "7"
      = ["happy", "sad"] := by
  refine ⟨fun history songs uid => ⟨jsSetDedup_nodup _, fun x => mem_jsSetDedup⟩,
    by decide, by decide⟩

/-- C8: the playlists, play-history and recommendations registrations live
inside the upload handler's body: every invocation of the upload endpoint
(successful or failing — `registered` is `nestedRoutes` in every branch)
adds one more handler for each of the three routes, and before the first
upload request none of them is registered. -/
theorem nested_routes_register_per_upload
    (reqs : List (Nat × Option UploadFile × ReqBody × UploadOracles))
    (r : Route) (hr : r ∈ nestedRoutes) :
    (routesAfterUploads reqs).count r = reqs.length ∧
    r ∉ routesAfterUploads [] ∧
    (∀ (nowCover : Nat) (file? : Option UploadFile) (body : ReqBody)
      (o : UploadOracles),
      (handleUpload nowCover file? body o).registered = nestedRoutes) := by
  refine ⟨?_, ?_, handleUpload_registered⟩
  · have hmap : reqs.map
        (fun q => (handleUpload q.1 q.2.1 q.2.2.1 q.2.2.2).registered)
        = List.replicate reqs.length nestedRoutes := by
      rw [List.eq_replicate_iff]
      refine ⟨by simp, ?_⟩
      intro b hb
      rw [List.mem_map] at hb
      obtain ⟨q, _, hq⟩ := hb
      rw [← hq, handleUpload_registered]
    rw [routesAfterUploads, List.count_append, hmap, count_flatten_replicate]
    have h0 : startupRoutes.count r = 0 := by fin_cases hr <;> decide
    have h1 : nestedRoutes.count r = 1 := by fin_cases hr <;> decide
    rw [h0, h1, Nat.mul_one, Nat.zero_add]
  · intro hmem
    rw [routesAfterUploads] at hmem
    simp only [List.map_nil, List.flatten_nil, List.append_nil] at hmem
    fin_cases hr <;> simp [startupRoutes] at hmem

/-- Witness for C8: after one upload invocation (here a failing one) the
playlists route is registered once; before any invocation it is absent. -/
theorem nested_routes_register_per_upload_instance :
    (routesAfterUploads
      [(1, none, emptyBody,
        ⟨Except.error "boom", Except.ok (), Except.ok ()⟩)]).count
      ("GET", "/api/playlists") = 1 ∧
    ("GET", "/api/playlists") ∉ routesAfterUploads [] ∧
    (∀ (nowCover : Nat) (file? : Option UploadFile) (body : ReqBody)
      (o : UploadOracles),
      (handleUpload nowCover file? body o).registered = nestedRoutes) :=
  nested_routes_register_per_upload
    [(1, none, emptyBody, ⟨Except.error "boom", Except.ok (), Except.ok ()⟩)]
    ("GET", "/api/playlists") (by decide)

/-- C9: an upload request with no file part dereferences the missing
`req.file` inside the try block; the `TypeError` is caught and the client
gets the same structured 500 failure as any other pipeline error — the
server does not crash and no song row is written. -/
theorem upload_missing_file_caught
    (nowCover : Nat) (body : ReqBody) (o : UploadOracles) :
    handleUpload nowCover none body o = uploadFailure none [] missingFileMsg ∧
    (handleUpload nowCover none body o).status = 500 ∧
    (handleUpload nowCover none body o).response
      = UploadResponse.failure "Upload failed" missingFileMsg ∧
    (handleUpload nowCover none body o).dbInsert = none :=
  ⟨rfl, rfl, rfl, rfl⟩

/-- C10: only the first element of an embedded genre list takes part in
genre resolution — for a committed upload the genre is resolved from
`genreHead`, a list with two or more entries resolves exactly as its head
alone, and an empty list falls through to the client genre or "Unknown"
exactly as a missing genre tag does. -/
theorem upload_genre_first_entry_only
    (nowCover : Nat) (f : UploadFile) (body : ReqBody) (o : UploadOracles)
    (m : Metadata) (s : Song)
    (hp : o.parse = Except.ok m)
    (hs : (handleUpload nowCover (some f) body o).dbInsert = some s) :
    s.genre = resolveField (genreHead m.common.genre) body.genre "Unknown" ∧
    (∀ (g : String) (rest : List String) (client : Option String),
      resolveField (genreHead (some (g :: rest))) client "Unknown"
        = resolveField (some g) client "Unknown") ∧
    (∀ client : Option String,
      resolveField (genreHead (some [])) client "Unknown"
        = resolveField (genreHead none) client "Unknown") ∧
    (∀ client : Option String,
      resolveField (genreHead none) client "Unknown"
        = orDefault client "Unknown") := by
  obtain ⟨m', thumb, writes, hp', hc, hd, hsong, hw⟩ := handleUpload_insert_inv hs
  rw [hp] at hp'
  injection hp' with hm
  subst hm
  subst hsong
  exact ⟨rfl, fun g rest client => rfl, fun client => rfl, fun client => rfl⟩

/-- Witness for C10: an upload whose embedded genre list is
["Rock", "Pop"] commits genre "Rock"; the tail is discarded. -/
theorem upload_genre_first_entry_only_instance :
    ("Rock" : String)
      = resolveField (genreHead (some ["Rock", "Pop"])) none "Unknown" ∧
    (∀ (g : String) (rest : List String) (client : Option String),
      resolveField (genreHead (some (g :: rest))) client "Unknown"
        = resolveField (some g) client "Unknown") ∧
    (∀ client : Option String,
      resolveField (genreHead (some [])) client "Unknown"
        = resolveField (genreHead none) client "Unknown") ∧
    (∀ client : Option String,
      resolveField (genreHead none) client "Unknown"
        = orDefault client "Unknown") :=
  upload_genre_first_entry_only 1
    ⟨"track.mp3", "uploads/songs/1-track.mp3"⟩ emptyBody
    ⟨Except.ok ⟨⟨none, none, none, some ["Rock", "Pop"], none⟩, ⟨none, none⟩⟩,
      Except.ok (), Except.ok ()⟩
    ⟨⟨none, none, none, some ["Rock", "Pop"], none⟩, ⟨none, none⟩⟩
    { title := "track", artist := "Unknown Artist", album := "Unknown Album",
      mood := "", genre := "Rock", language := none,
      filepath := "uploads/songs/1-track.mp3", userId := none,
      bitrate := 0, duration := 0, thumbnail := none }
    rfl rfl

end Audix
